import Mathlib

/-!
Verification of the buffered rotating log writer in `rlog.go`
(package `rlog`, repository Data-Corruption/rlog).

The Go code is embedded shallowly:

* `Writer` mirrors the `Writer` struct (`rlog.go`, lines 65–75).  The Go
  struct also carries `filePath` (always `dirPath ++ "/latest.log"`, derived)
  and an optional `*sync.Mutex`; the mutex only serialises the public calls
  and has no effect on the sequential semantics modelled here, so neither
  field is part of the state.
* A Go `*os.File` is modelled by `Option GoFile`: the pointer is either
  `nil` (`none`) or points to a handle whose underlying descriptor may
  already have been closed (`GoFile.fdClosed`).  Operations through a `nil`
  pointer fail with `os.ErrInvalid`; operations on a closed descriptor fail
  with `os.ErrClosed`; `(*os.File).Close` marks the descriptor closed even
  when it reports an error.
* The directory is modelled by `FS`: the contents of the active file
  `<dirPath>/latest.log` (`none` when that path does not exist, as after a
  rename that was not followed by a successful reopen) and the list of
  rotated archives in rotation order.  A rotated archive is named by
  formatting the rotation instant with the Go layout
  `"20060102-150405.000000"`; that string is an injective function of the
  instant truncated to whole microseconds, so archives are keyed here by the
  microsecond count itself (`archiveKey`).  `os.Rename` onto a name that
  already exists silently replaces the old file, which `fsRename` reflects.
* Wall-clock instants are nanosecond counts (`Int`); `time.Since(t)` is
  `now - t`.  Each `time.Now()` call made during an operation is an input:
  `FlushEnv.rotTime` (read inside `rotate` for the archive name) and
  `FlushEnv.endTime` (read at the end of a successful flush for
  `lastFlush`); `WriteEnv.now` is the reading used by `time.Since` in
  `Write`.
* The outcome of each fallible OS call (`Stat`, `Close`, `Rename`,
  `OpenFile`, `Write`, `Sync`) is an oracle bit in `FlushEnv`; a failed
  call produces the corresponding `RErr` value.  A failed file write is
  modelled as leaving the file unchanged (the Go code abandons the flush
  either way, and no property below depends on partially written file
  contents).

Bytes are abstract: `Byte := Nat`.
-/

namespace Rlog

abbrev Byte := Nat

/-- A Go `os.File` handle object; `fdClosed` records whether the underlying
descriptor has already been closed. -/
structure GoFile where
  fdClosed : Bool
  deriving Repr, DecidableEq

/-- The `Writer` struct of `rlog.go` (sizes and durations as in Go:
`maxFileSize : int64`, `maxBufSize : int`, `maxBufAge : time.Duration` in
nanoseconds, `lastFlush : time.Time` as a nanosecond instant). -/
structure Writer where
  dirPath : String
  maxFileSize : Int
  maxBufSize : Int
  maxBufAge : Int
  lastFlush : Int
  file : Option GoFile
  buf : List Byte
  deriving Repr, DecidableEq

/-- The writer-visible part of the filesystem: the active file
`<dirPath>/latest.log` and the rotated archives, keyed by the microsecond
instant that names them. -/
structure FS where
  active : Option (List Byte)
  archives : List (Int × List Byte)
  deriving Repr, DecidableEq

/-- A writer together with the directory it writes to. -/
structure Sys where
  w : Writer
  fs : FS
  deriving Repr, DecidableEq

/-- Errors the operations can return.  `fileIsClosed` is the
`fmt.Errorf("log file %q is closed", …)` produced by `flush` when
`w.file == nil`; `osErrClosed` / `osErrInvalid` are the errors `os.File`
methods return on a closed descriptor / a nil receiver; the remaining
values stand for I/O errors of the corresponding OS call. -/
inductive RErr where
  | fileIsClosed
  | osErrClosed
  | osErrInvalid
  | statFail
  | closeFail
  | renameFail
  | openFail
  | writeFail
  | syncFail
  deriving Repr, DecidableEq

/-- Oracle for one `flush` call: outcomes of the fallible OS calls it may
make and the instants its `time.Now()` calls return. -/
structure FlushEnv where
  statOk : Bool
  closeOk : Bool
  renameOk : Bool
  openOk : Bool
  writeOk : Bool
  syncOk : Bool
  rotTime : Int
  endTime : Int
  deriving Repr, DecidableEq

/-- Oracle for one `Write` call: the `time.Now()` reading used by
`time.Since(w.lastFlush)` plus the oracle for the flush it may trigger. -/
structure WriteEnv where
  now : Int
  fenv : FlushEnv
  deriving Repr, DecidableEq

/-- The archive name produced from the instant `t` (ns): the Go layout
`"20060102-150405.000000"` renders `t` truncated to whole microseconds, so
two instants collide exactly when their microsecond counts agree. -/
def archiveKey (t : Int) : Int := t / 1000

/-- `os.Rename(w.filePath, newPath)`: the active file becomes the archive
named `key`, silently replacing an existing archive of that name. -/
def fsRename (fs : FS) (key : Int) (content : List Byte) : FS :=
  { active := none
    archives := fs.archives.filter (fun a => decide (a.1 ≠ key)) ++ [(key, content)] }

/-- Second half of `rotate` (`rlog.go`, lines 235–244): format the
timestamp, rename the active file, reopen `latest.log` with
`O_CREATE|O_WRONLY|O_APPEND` (fresh and empty, since the rename just moved
the old file away).  A rename whose source does not exist fails. -/
def renameAndReopen (s : Sys) (env : FlushEnv) : Option RErr × Sys :=
  match s.fs.active with
  | none => (some .renameFail, s)
  | some content =>
    if env.renameOk then
      let s2 : Sys := { s with fs := fsRename s.fs (archiveKey env.rotTime) content }
      if env.openOk then
        (none, { s2 with
                  w := { s2.w with file := some ⟨false⟩ }
                  fs := { s2.fs with active := some [] } })
      else (some .openFail, s2)
    else (some .renameFail, s)

/-- `rotate` (`rlog.go`, lines 228–245).  If the handle is non-nil it is
closed first; on a close error the code returns without setting
`w.file = nil` (the descriptor is closed regardless, as `os.File.Close`
guarantees).  Then the active file is renamed and a fresh one opened. -/
def rotate (s : Sys) (env : FlushEnv) : Option RErr × Sys :=
  match s.w.file with
  | some f =>
    if f.fdClosed then (some .osErrClosed, s)
    else if env.closeOk then
      renameAndReopen { s with w := { s.w with file := none } } env
    else (some .closeFail, { s with w := { s.w with file := some ⟨true⟩ } })
  | none => renameAndReopen s env

/-- Tail of `flush` (`rlog.go`, lines 213–222): write the whole buffer to
the active file, `Sync`, then reset the buffer and set `lastFlush`. -/
def flushTail (s : Sys) (env : FlushEnv) : Option RErr × Sys :=
  if env.writeOk then
    let s2 : Sys :=
      { s with fs := { s.fs with active := some (s.fs.active.getD [] ++ s.w.buf) } }
    if env.syncOk then
      (none, { s2 with w := { s2.w with buf := [], lastFlush := env.endTime } })
    else (some .syncFail, s2)
  else (some .writeFail, s)

/-- `flush` (`rlog.go`, lines 196–223): nil-handle guard, empty-buffer
no-op, `Stat` for the current size, rotation when
`size + len(buf) ≥ maxFileSize`, then write-and-sync.  `Stat` on a closed
descriptor fails with `os.ErrClosed`. -/
def flush (s : Sys) (env : FlushEnv) : Option RErr × Sys :=
  match s.w.file with
  | none => (some .fileIsClosed, s)
  | some f =>
    if s.w.buf = [] then (none, s)
    else if f.fdClosed then (some .osErrClosed, s)
    else if env.statOk then
      if ((s.fs.active.getD []).length : Int) + s.w.buf.length ≥ s.w.maxFileSize then
        match rotate s env with
        | (some e, s1) => (some e, s1)
        | (none, s1) => flushTail s1 env
      else flushTail s env
    else (some .statFail, s)

/-- The state after `w.buf = append(w.buf, p...)`, the first statement of
`Write`. -/
def buffered (s : Sys) (p : List Byte) : Sys :=
  { s with w := { s.w with buf := s.w.buf ++ p } }

/-- `Write` (`rlog.go`, lines 152–164): append `p` to the buffer, flush when
the buffer has reached `maxBufSize` or `maxBufAge` has elapsed since the
last flush, return `(len p, nil)` on success and `(0, err)` when the
triggered flush failed. -/
def Write (s : Sys) (p : List Byte) (env : WriteEnv) : (Nat × Option RErr) × Sys :=
  if (((buffered s p).w.buf.length : Int) ≥ s.w.maxBufSize ∨
      env.now - s.w.lastFlush ≥ s.w.maxBufAge) then
    match flush (buffered s p) env.fenv with
    | (some e, s2) => ((0, some e), s2)
    | (none, s2) => ((p.length, none), s2)
  else ((p.length, none), buffered s p)

/-- `Flush` (`rlog.go`, lines 167–173): just the internal `flush`. -/
def Flush (s : Sys) (env : FlushEnv) : Option RErr × Sys := flush s env

/-- `Close` (`rlog.go`, lines 177–186): a final `flush`; when it fails its
error is returned at once (the handle is not touched); otherwise
`w.file.Close()` — which errors on a nil pointer or an already-closed
descriptor, and marks the descriptor closed in every case.  `closeOk` is
the oracle bit for that final OS close. -/
def Close (s : Sys) (env : FlushEnv) (closeOk : Bool) : Option RErr × Sys :=
  match flush s env with
  | (some e, s1) => (some e, s1)
  | (none, s1) =>
    match s1.w.file with
    | none => (some .osErrInvalid, s1)
    | some f =>
      if f.fdClosed then (some .osErrClosed, s1)
      else
        let s2 : Sys := { s1 with w := { s1.w with file := some ⟨true⟩ } }
        if closeOk then (none, s2) else (some .closeFail, s2)

/-- `New` (`rlog.go`, lines 117–144) on a directory that exists and holds no
log files yet: all thresholds set (defaults or via options), empty buffer,
`lastFlush = now`, a fresh empty active file opened. -/
def New (dirPath : String) (maxFileSize maxBufSize maxBufAge t0 : Int) : Sys :=
  { w := { dirPath := dirPath
           maxFileSize := maxFileSize
           maxBufSize := maxBufSize
           maxBufAge := maxBufAge
           lastFlush := t0
           file := some ⟨false⟩
           buf := [] }
    fs := { active := some [], archives := [] } }

def DefaultMaxFileSize : Int := 256 * 1024 * 1024
def DefaultMaxBufSize : Int := 4096
def DefaultMaxBuffAge : Int := 15 * 1000000000

/-- One public call on the writer, with its oracle. -/
inductive Op where
  | write (p : List Byte) (env : WriteEnv)
  | flushCall (env : FlushEnv)
  | closeCall (env : FlushEnv) (closeOk : Bool)
  deriving Repr, DecidableEq

/-- Run one call, reporting its error and the state it leaves. -/
def step (s : Sys) : Op → Option RErr × Sys
  | .write p env => ((Write s p env).1.2, (Write s p env).2)
  | .flushCall env => Flush s env
  | .closeCall env c => Close s env c

/-- The state after a sequence of calls. -/
def runOps (s : Sys) : List Op → Sys
  | [] => s
  | op :: rest => runOps (step s op).2 rest

/-- Whether every call in the sequence returned a nil error. -/
def runOk (s : Sys) : List Op → Bool
  | [] => true
  | op :: rest =>
    match step s op with
    | (none, s1) => runOk s1 rest
    | (some _, _) => false

def opBytes : Op → List Byte
  | .write p _ => p
  | .flushCall _ => []
  | .closeCall _ _ => []

/-- The bytes handed to the `Write` calls of the sequence, in call order. -/
def writtenBytes (ops : List Op) : List Byte := (ops.map opBytes).flatten

/-- The archive name a call would use if it rotated. -/
def opMicro : Op → Int
  | .write _ env => archiveKey env.fenv.rotTime
  | .flushCall env => archiveKey env.rotTime
  | .closeCall env _ => archiveKey env.rotTime

/-- All bytes on disk: the archives in rotation order, then the active
file. -/
def fsBytes (fs : FS) : List Byte := (fs.archives.map Prod.snd).flatten ++ fs.active.getD []

/-- All bytes the system holds: on disk plus still buffered. -/
def allBytes (s : Sys) : List Byte := fsBytes s.fs ++ s.w.buf

/-! ### Basic lemmas about the internal steps -/

lemma renameAndReopen_preserves (s : Sys) (env : FlushEnv) :
    ((renameAndReopen s env).2).w.buf = s.w.buf ∧
    ((renameAndReopen s env).2).w.lastFlush = s.w.lastFlush := by
  unfold renameAndReopen
  split
  · simp
  · split
    · split <;> simp [fsRename]
    · simp

lemma rotate_preserves (s : Sys) (env : FlushEnv) :
    ((rotate s env).2).w.buf = s.w.buf ∧
    ((rotate s env).2).w.lastFlush = s.w.lastFlush := by
  unfold rotate
  split
  · split
    · simp
    · split
      · exact renameAndReopen_preserves _ env
      · simp
  · exact renameAndReopen_preserves _ env

lemma flushTail_error (s : Sys) (env : FlushEnv) (e : RErr) (s1 : Sys)
    (h : flushTail s env = (some e, s1)) :
    s1.w.buf = s.w.buf ∧ s1.w.lastFlush = s.w.lastFlush := by
  unfold flushTail at h
  split at h
  · split at h
    · exact absurd h (by simp)
    · cases h; simp
  · cases h; simp

lemma flushTail_ok (s : Sys) (env : FlushEnv) (s1 : Sys)
    (h : flushTail s env = (none, s1)) :
    s1 = { s with
            w := { s.w with buf := [], lastFlush := env.endTime }
            fs := { s.fs with active := some (s.fs.active.getD [] ++ s.w.buf) } } := by
  unfold flushTail at h
  split at h
  · split at h
    · cases h; rfl
    · exact absurd h (by simp)
  · exact absurd h (by simp)

lemma rotate_ok (s : Sys) (env : FlushEnv) (s1 : Sys)
    (h : rotate s env = (none, s1)) :
    ∃ content, s.fs.active = some content ∧
      s1 = { w := { s.w with file := some ⟨false⟩ }
             fs := { active := some []
                     archives :=
                       s.fs.archives.filter (fun a => decide (a.1 ≠ archiveKey env.rotTime))
                         ++ [(archiveKey env.rotTime, content)] } } := by
  unfold rotate at h
  have core : ∀ s0 : Sys, s0.w = { s.w with file := none } ∨ s0.w = s.w → s0.fs = s.fs →
      renameAndReopen s0 env = (none, s1) →
      ∃ content, s.fs.active = some content ∧
        s1 = { w := { s.w with file := some ⟨false⟩ }
               fs := { active := some []
                       archives :=
                         s.fs.archives.filter (fun a => decide (a.1 ≠ archiveKey env.rotTime))
                           ++ [(archiveKey env.rotTime, content)] } } := by
    intro s0 hw hfs h0
    unfold renameAndReopen at h0
    split at h0
    · exact absurd h0 (by simp)
    · rename_i content hact
      split at h0
      · split at h0
        · cases h0
          refine ⟨content, by rw [← hfs]; exact hact, ?_⟩
          rcases hw with hw | hw <;>
            simp [fsRename, hfs, hw]
        · exact absurd h0 (by simp)
      · exact absurd h0 (by simp)
  split at h
  · split at h
    · exact absurd h (by simp)
    · split at h
      · exact core { s with w := { s.w with file := none } } (Or.inl rfl) rfl h
      · exact absurd h (by simp)
  · rename_i hfile
    refine core s (Or.inr rfl) rfl ?_
    · exact h

/-- Inversion for a failed `flush`: every error exit leaves the writer's
buffer and `lastFlush` untouched. -/
lemma flush_error_inv (s : Sys) (env : FlushEnv) (e : RErr) (s1 : Sys)
    (h : flush s env = (some e, s1)) :
    s1.w.buf = s.w.buf ∧ s1.w.lastFlush = s.w.lastFlush := by
  unfold flush at h
  split at h
  · cases h; simp
  · split at h
    · exact absurd h (by simp)
    · split at h
      · cases h; simp
      · split at h
        · split at h
          · split at h
            · rename_i heq
              cases h
              have := rotate_preserves s env
              rw [heq] at this
              exact this
            · rename_i s2 heq
              have h2 := flushTail_error s2 env e s1 h
              have h3 := rotate_preserves s env
              rw [heq] at h3
              exact ⟨h2.1.trans h3.1, h2.2.trans h3.2⟩
          · exact flushTail_error s env e s1 h
        · cases h; simp

lemma filter_ne_of_fresh (l : List (Int × List Byte)) (k : Int)
    (h : ∀ a ∈ l, a.1 ≠ k) : l.filter (fun a => decide (a.1 ≠ k)) = l := by
  induction l with
  | nil => rfl
  | cons a l ih =>
    have ha : a.1 ≠ k := h a (by simp)
    simp only [List.filter, decide_eq_true ha]
    rw [ih (fun b hb => h b (by simp [hb]))]

/-- Inversion for a successful `flush`: either the buffer was empty and
nothing happened, or the whole buffer moved to the active file, with a
rotation first exactly when the size threshold was met. -/
lemma flush_ok_inv (s : Sys) (env : FlushEnv) (s1 : Sys)
    (h : flush s env = (none, s1)) :
    (s.w.buf = [] ∧ s1 = s) ∨
    (s.w.buf ≠ [] ∧
      ((((s.fs.active.getD []).length : Int) + s.w.buf.length < s.w.maxFileSize ∧
        s1 = { s with
                w := { s.w with buf := [], lastFlush := env.endTime }
                fs := { s.fs with active := some (s.fs.active.getD [] ++ s.w.buf) } }) ∨
       (((s.fs.active.getD []).length : Int) + s.w.buf.length ≥ s.w.maxFileSize ∧
        ∃ content, s.fs.active = some content ∧
          s1 = { w := { s.w with buf := [], lastFlush := env.endTime, file := some ⟨false⟩ }
                 fs := { active := some s.w.buf
                         archives :=
                           s.fs.archives.filter (fun a => decide (a.1 ≠ archiveKey env.rotTime))
                             ++ [(archiveKey env.rotTime, content)] } }))) := by
  unfold flush at h
  split at h
  · exact absurd h (by simp)
  · rename_i f hfile
    split at h
    · rename_i hbuf; cases h; exact Or.inl ⟨hbuf, rfl⟩
    · rename_i hbuf
      split at h
      · exact absurd h (by simp)
      · split at h
        · split at h
          · rename_i hge
            split at h
            · exact absurd h (by simp)
            · rename_i sx hrot
              obtain ⟨content, hact, rfl⟩ := rotate_ok s env sx hrot
              have h1 := flushTail_ok _ env s1 h
              refine Or.inr ⟨hbuf, Or.inr ⟨hge, content, hact, ?_⟩⟩
              rw [h1]; simp
          · rename_i hlt
            have h1 := flushTail_ok s env s1 h
            exact Or.inr ⟨hbuf, Or.inl ⟨lt_of_not_ge hlt, h1⟩⟩
        · exact absurd h (by simp)

/-- A successful `flush` always leaves the buffer empty. -/
lemma flush_ok_buf (s : Sys) (env : FlushEnv) (s1 : Sys)
    (h : flush s env = (none, s1)) : s1.w.buf = [] := by
  rcases flush_ok_inv s env s1 h with ⟨hb, rfl⟩ | ⟨_, hc⟩
  · exact hb
  · rcases hc with ⟨_, rfl⟩ | ⟨_, _, _, rfl⟩ <;> rfl

/-- A successful `flush` whose rotation name is fresh moves bytes between
buffer and files but neither loses nor duplicates any, and the only archive
name it can add is the one derived from its rotation instant. -/
lemma flush_ok_allBytes (s : Sys) (env : FlushEnv) (s1 : Sys)
    (hfresh : ∀ a ∈ s.fs.archives, a.1 ≠ archiveKey env.rotTime)
    (h : flush s env = (none, s1)) :
    allBytes s1 = allBytes s ∧
    ∀ a ∈ s1.fs.archives, a.1 ∈ s.fs.archives.map Prod.fst ∨ a.1 = archiveKey env.rotTime := by
  rcases flush_ok_inv s env s1 h with ⟨hb, rfl⟩ | ⟨hb, hc⟩
  · exact ⟨rfl, fun a ha => Or.inl (List.mem_map_of_mem Prod.fst ha)⟩
  · rcases hc with ⟨_, rfl⟩ | ⟨_, content, hact, rfl⟩
    · refine ⟨?_, fun a ha => Or.inl (List.mem_map_of_mem Prod.fst ha)⟩
      simp [allBytes, fsBytes, List.append_assoc]
    · rw [filter_ne_of_fresh _ _ hfresh]
      constructor
      · simp [allBytes, fsBytes, hact, List.append_assoc]
      · intro a ha
        rcases List.mem_append.mp ha with ha | ha
        · exact Or.inl (List.mem_map_of_mem Prod.fst ha)
        · simp at ha
          exact Or.inr (by rw [ha])

/-- A successful `flush` went through a non-nil handle. -/
lemma flush_ok_file (s : Sys) (env : FlushEnv) (s1 : Sys)
    (h : flush s env = (none, s1)) :
    ∃ f, s.w.file = some f := by
  unfold flush at h
  split at h
  · exact absurd h (by simp)
  · rename_i f hf
    exact ⟨f, hf⟩

/-- The invariant that justifies talking about "open" writers: the handle
pointer is set, or bytes are pending (the only state with a nil pointer the
code can produce — a rotation that failed after closing the old handle —
keeps the buffer it was flushing). -/
def goodState (s : Sys) : Prop := s.w.file ≠ none ∨ s.w.buf ≠ []

lemma flush_goodState (s : Sys) (env : FlushEnv) (h : goodState s) :
    goodState (flush s env).2 := by
  rcases hfl : flush s env with ⟨oe, s1⟩
  simp only
  cases oe with
  | some e =>
    have hb := (flush_error_inv s env e s1 hfl).1
    by_cases hbuf : s.w.buf = []
    · rcases h with hfile | hne
      · exfalso
        rcases hf : s.w.file with _ | f
        · exact hfile hf
        · unfold flush at hfl
          rw [hf] at hfl
          simp [hbuf] at hfl
      · exact absurd hbuf hne
    · exact Or.inr (by rw [hb]; exact hbuf)
  | none =>
    rcases flush_ok_inv s env s1 hfl with ⟨hbuf, rfl⟩ | ⟨hbuf, hc⟩
    · exact h
    · rcases hc with ⟨_, rfl⟩ | ⟨_, c, hac, rfl⟩
      · left
        obtain ⟨f, hf⟩ := flush_ok_file s env _ hfl
        simp [hf]
      · left
        simp

lemma step_goodState (s : Sys) (op : Op) (h : goodState s) :
    goodState (step s op).2 := by
  cases op with
  | write p env =>
    have hb : goodState (buffered s p) := by
      rcases h with h1 | h2
      · exact Or.inl h1
      · exact Or.inr fun hnil => h2 (List.append_eq_nil.mp hnil).1
    simp only [step]
    unfold Write
    split
    · rcases hfl : flush (buffered s p) env.fenv with ⟨oe, s2⟩
      have hgs := flush_goodState (buffered s p) env.fenv hb
      rw [hfl] at hgs
      cases oe <;> simpa using hgs
    · exact hb
  | flushCall env =>
    exact flush_goodState s env h
  | closeCall env c =>
    simp only [step]
    unfold Close
    rcases hfl : flush s env with ⟨oe, s1⟩
    have hgs := flush_goodState s env h
    rw [hfl] at hgs
    cases oe with
    | some e => exact hgs
    | none =>
      simp only
      rcases hfile : s1.w.file with _ | f
      · simpa using hgs
      · by_cases hfd : f.fdClosed
        · simp only [hfd]
          left
          simp [hfile]
        · simp only [hfd]
          cases c <;> (left; simp)

/-- Every state the public operations can reach from `New` satisfies
`goodState`. -/
lemma runOps_goodState (ops : List Op) : ∀ s : Sys, goodState s →
    goodState (runOps s ops) := by
  induction ops with
  | nil =>
    intro s h
    exact h
  | cons op rest ih =>
    intro s h
    exact ih _ (step_goodState s op h)

/-- Every `Write` call returns either `(len p, nil)` or `(0, err)`. -/
lemma write_cases (s : Sys) (p : List Byte) (env : WriteEnv) :
    (∃ s2, Write s p env = ((p.length, none), s2)) ∨
    (∃ e s2, Write s p env = ((0, some e), s2)) := by
  unfold Write
  split
  · rcases hfl : flush (buffered s p) env.fenv with ⟨oe, s2⟩
    cases oe with
    | none => exact Or.inl ⟨s2, rfl⟩
    | some e => exact Or.inr ⟨e, s2, rfl⟩
  · exact Or.inl ⟨buffered s p, rfl⟩

/-- Inversion for a `Write` that returned a nil error: the count is
`len p`, and either no flush was triggered (the bytes were only buffered) or
the triggered flush of the extended buffer succeeded. -/
lemma write_ok_inv (s : Sys) (p : List Byte) (env : WriteEnv) (n : Nat) (s1 : Sys)
    (h : Write s p env = ((n, none), s1)) :
    n = p.length ∧
      (s1 = buffered s p ∨ flush (buffered s p) env.fenv = (none, s1)) := by
  unfold Write at h
  split at h
  · split at h
    · exact absurd h (by simp)
    · rename_i s2 hf
      cases h
      exact ⟨rfl, Or.inr hf⟩
  · cases h
    exact ⟨rfl, Or.inl rfl⟩

/-- Inversion for a `Close` that returned a nil error: the final flush
succeeded and the only further change is the handle becoming closed. -/
lemma close_ok_inv (s : Sys) (env : FlushEnv) (c : Bool) (s1 : Sys)
    (h : Close s env c = (none, s1)) :
    ∃ s2, flush s env = (none, s2) ∧
      s1 = { s2 with w := { s2.w with file := some ⟨true⟩ } } := by
  unfold Close at h
  split at h
  · exact absurd h (by simp)
  · rename_i s2 hf
    split at h
    · exact absurd h (by simp)
    · split at h
      · exact absurd h (by simp)
      · split at h
        · cases h
          exact ⟨s2, hf, rfl⟩
        · exact absurd h (by simp)

lemma runOk_cons (s : Sys) (op : Op) (rest : List Op)
    (h : runOk s (op :: rest) = true) :
    ∃ s1, step s op = (none, s1) ∧ runOk s1 rest = true := by
  unfold runOk at h
  split at h
  · rename_i s1 hstep
    exact ⟨s1, hstep, h⟩
  · exact absurd h (by simp)

/-- One successful public call extends the bytes held by the system by
exactly the bytes it wrote, and can only add the archive name derived from
its own rotation instant. -/
lemma step_ok_allBytes (s : Sys) (op : Op) (s1 : Sys)
    (hfresh : ∀ a ∈ s.fs.archives, a.1 ≠ opMicro op)
    (h : step s op = (none, s1)) :
    allBytes s1 = allBytes s ++ opBytes op ∧
    ∀ a ∈ s1.fs.archives, a.1 ∈ s.fs.archives.map Prod.fst ∨ a.1 = opMicro op := by
  cases op with
  | write p env =>
    simp only [step, Prod.mk.injEq] at h
    obtain ⟨herr, hs1⟩ := h
    have hw : Write s p env = ((p.length, none), s1) := by
      rcases write_cases s p env with ⟨s2, hc⟩ | ⟨e, s2, hc⟩
      · rw [hc] at hs1
        simp only at hs1
        rw [hc, hs1]
      · rw [hc] at herr
        exact absurd herr (by simp)
    obtain ⟨-, hcase⟩ := write_ok_inv s p env p.length s1 hw
    rcases hcase with rfl | hf
    · refine ⟨?_, fun a ha => Or.inl (List.mem_map_of_mem Prod.fst ha)⟩
      simp [allBytes, buffered, opBytes, List.append_assoc]
    · obtain ⟨h1, h2⟩ := flush_ok_allBytes (buffered s p) env.fenv s1 hfresh hf
      refine ⟨?_, h2⟩
      rw [h1]
      simp [allBytes, buffered, opBytes, List.append_assoc]
  | flushCall env =>
    simp only [step, Flush] at h
    obtain ⟨h1, h2⟩ := flush_ok_allBytes s env s1 hfresh h
    exact ⟨by rw [h1]; simp [opBytes], h2⟩
  | closeCall env c =>
    simp only [step] at h
    obtain ⟨s2, hf, rfl⟩ := close_ok_inv s env c s1 h
    obtain ⟨h1, h2⟩ := flush_ok_allBytes s env s2 hfresh hf
    refine ⟨?_, h2⟩
    have hsame : allBytes { s2 with w := { s2.w with file := some ⟨true⟩ } } = allBytes s2 := by
      simp [allBytes]
    rw [hsame, h1]
    simp [opBytes]

/-- Running a successful sequence of calls whose rotation names are
pairwise distinct and fresh extends the bytes held by the system by exactly
the bytes written. -/
lemma run_allBytes (ops : List Op) : ∀ s : Sys,
    (ops.map opMicro).Pairwise (· ≠ ·) →
    (∀ a ∈ s.fs.archives, ∀ op ∈ ops, a.1 ≠ opMicro op) →
    runOk s ops = true →
    allBytes (runOps s ops) = allBytes s ++ writtenBytes ops := by
  induction ops with
  | nil =>
    intro s _ _ _
    simp [runOps, writtenBytes]
  | cons op rest ih =>
    intro s hpw hsep hok
    obtain ⟨s1, hstep, hok1⟩ := runOk_cons s op rest hok
    have hfresh : ∀ a ∈ s.fs.archives, a.1 ≠ opMicro op :=
      fun a ha => hsep a ha op (by simp)
    obtain ⟨hbytes, harch⟩ := step_ok_allBytes s op s1 hfresh hstep
    rw [List.map_cons, List.pairwise_cons] at hpw
    have hsep1 : ∀ a ∈ s1.fs.archives, ∀ o ∈ rest, a.1 ≠ opMicro o := by
      intro a ha o ho
      rcases harch a ha with hmem | heq
      · obtain ⟨b, hb, hba⟩ := List.mem_map.mp hmem
        rw [← hba]
        exact hsep b hb o (by simp [ho])
      · rw [heq]
        exact hpw.1 (opMicro o) (List.mem_map_of_mem _ ho)
    have hrest := ih s1 hpw.2 hsep1 hok1
    have hrun : runOps s (op :: rest) = runOps s1 rest := by
      simp [runOps, hstep]
    rw [hrun, hrest, hbytes]
    simp [writtenBytes, List.append_assoc]

/-! ### Concrete fixtures used by counterexamples and witnesses -/

/-- An oracle under which every OS call succeeds. -/
def okEnv (rt et : Int) : FlushEnv := ⟨true, true, true, true, true, true, rt, et⟩

/-- An oracle under which the `Stat` size query fails. -/
def statFailEnv : FlushEnv := { okEnv 0 1 with statOk := false }

/-- An oracle under which `Sync` fails. -/
def syncFailEnv : FlushEnv := { okEnv 0 1 with syncOk := false }

/-- A writer fresh from `New`: `maxFileSize` 1000000, `maxBufSize` 10,
`maxBufAge` 1 s, created at instant 0. -/
def base : Sys := New "d" 1000000 10 1000000000 0

/-- `base` after a small `Write` left the byte 7 buffered. -/
def base7 : Sys := buffered base [7]

/-- A writer whose every byte written forces a flush and a rotation:
`maxFileSize` 1 and `maxBufSize` 1. -/
def tinySys : Sys := New "d" 1 1 1000000000 0

/-- Three writes whose rotation instants (100 ns, 700 ns, 900 ns) all fall
in microsecond 0. -/
def colOp1 : Op := .write [1] ⟨0, okEnv 100 0⟩
def colOp2 : Op := .write [2] ⟨0, okEnv 700 0⟩
def colOp3 : Op := .write [3] ⟨0, okEnv 900 0⟩

/-- Three writes whose rotation instants fall in the distinct microseconds
1, 2 and 3. -/
def sepOp1 : Op := .write [1] ⟨0, okEnv 1500 0⟩
def sepOp2 : Op := .write [2] ⟨0, okEnv 2500 0⟩
def sepOp3 : Op := .write [3] ⟨0, okEnv 3500 0⟩

/-! ### The claims -/

/-- **C1.** The claim (and the repository README's error-handling note)
says the first error returned by any operation is recorded in the Writer
and every later `Write`/`Flush`/`Close` returns a non-nil error at once,
with no new file I/O.  The `Writer` struct has no such field and no
operation latches anything: here a ten-byte `Write` triggers a flush whose
size query fails, so it returns the error — yet the next `Write` returns
`(1, nil)` and performs the full file write and sync, leaving all eleven
bytes in the active file. -/
theorem c1_no_error_latching :
    (Write base [1, 2, 3, 4, 5, 6, 7, 8, 9, 0] ⟨1, statFailEnv⟩).1
        = (0, some .statFail) ∧
    (Write (Write base [1, 2, 3, 4, 5, 6, 7, 8, 9, 0] ⟨1, statFailEnv⟩).2
        [5] ⟨2, okEnv 0 3⟩).1 = (1, none) ∧
    (Write (Write base [1, 2, 3, 4, 5, 6, 7, 8, 9, 0] ⟨1, statFailEnv⟩).2
        [5] ⟨2, okEnv 0 3⟩).2.fs.active
      = some [1, 2, 3, 4, 5, 6, 7, 8, 9, 0, 5] := by decide

/-- **C2, counterexample.** The claim says that after a successful `Close`
no `Write` may return a nil error.  `Close` never sets `w.file = nil`, so a
post-Close `Write` that does not trigger a flush appends to the buffer and
returns `(len p, nil)`. -/
theorem c2_counterexample :
    (Close base (okEnv 0 5) true).1 = none ∧
    (Write (Close base (okEnv 0 5) true).2 [9] ⟨6, okEnv 0 6⟩).1 = (1, none) := by decide

/-- **C2, amended.** After a successful `Close`: a second `Close` fails
with the closed-file error and changes nothing (its final flush is a no-op
on the empty buffer, so nothing is flushed twice); a `Flush` returns nil
since the buffer is empty; a `Write` that triggers a flush of a non-empty
buffer fails with the closed-file error; but a `Write` that does not
trigger a flush returns `(len p, nil)` and merely buffers the bytes. -/
theorem c2_after_close (s0 : Sys) (env0 : FlushEnv) (c0 : Bool) (s : Sys)
    (h : Close s0 env0 c0 = (none, s)) :
    (∀ env c, Close s env c = (some .osErrClosed, s)) ∧
    (∀ env, Flush s env = (none, s)) ∧
    (∀ p wenv, p ≠ [] →
        (((buffered s p).w.buf.length : Int) ≥ s.w.maxBufSize ∨
            wenv.now - s.w.lastFlush ≥ s.w.maxBufAge) →
        Write s p wenv = ((0, some .osErrClosed), buffered s p)) ∧
    (∀ p wenv, ¬ (((buffered s p).w.buf.length : Int) ≥ s.w.maxBufSize ∨
            wenv.now - s.w.lastFlush ≥ s.w.maxBufAge) →
        Write s p wenv = ((p.length, none), buffered s p)) := by
  obtain ⟨s2, hf, rfl⟩ := close_ok_inv s0 env0 c0 s h
  have hb : s2.w.buf = [] := flush_ok_buf s0 env0 s2 hf
  refine ⟨?_, ?_, ?_, ?_⟩
  · intro env c
    unfold Close flush
    simp [hb]
  · intro env
    unfold Flush flush
    simp [hb]
  · intro p wenv hp htrig
    unfold Write
    rw [if_pos htrig]
    have hfl : flush (buffered { s2 with w := { s2.w with file := some ⟨true⟩ } } p) wenv.fenv
        = (some .osErrClosed, buffered { s2 with w := { s2.w with file := some ⟨true⟩ } } p) := by
      unfold flush buffered
      simp [hb, hp]
    rw [hfl]
  · intro p wenv htrig
    unfold Write
    rw [if_neg htrig]

/-- Witness for `c2_after_close` at a concrete closed writer. -/
theorem c2_after_close_witness :
    Write (Close base (okEnv 0 5) true).2 [9] ⟨6, okEnv 0 6⟩
      = ((1, none), buffered (Close base (okEnv 0 5) true).2 [9]) :=
  (c2_after_close base (okEnv 0 5) true (Close base (okEnv 0 5) true).2
      (by decide)).2.2.2 [9] ⟨6, okEnv 0 6⟩ (by decide)

/-- **C3, counterexample.** The claim says `Close` closes the underlying
file handle whether or not the final flush succeeded.  When the flush
fails (here: its size query), `Close` returns at once and the descriptor is
still open (`fdClosed = false`). -/
theorem c3_counterexample :
    Close base7 statFailEnv true = (some .statFail, base7) ∧
    base7.w.file = some ⟨false⟩ ∧
    base7.w.buf = [7] := by decide

/-- **C3, amended.** `Close` performs a final flush; when the flush fails
its error is returned and the file handle is left untouched (not closed);
only when the flush succeeds is the handle closed, and then the result of
that close is returned. -/
theorem c3_close_amended (s : Sys) (env : FlushEnv) (cOk : Bool) :
    (∀ e s1, flush s env = (some e, s1) → Close s env cOk = (some e, s1)) ∧
    (∀ s1 f, flush s env = (none, s1) → s1.w.file = some f → f.fdClosed = false →
        Close s env cOk = ((if cOk then none else some .closeFail),
          { s1 with w := { s1.w with file := some ⟨true⟩ } })) := by
  constructor
  · intro e s1 hf
    unfold Close
    rw [hf]
  · intro s1 f hf hfile hfd
    unfold Close
    rw [hf]
    simp only
    rw [hfile]
    simp only [hfd]
    cases cOk <;> simp

/-- Witness for `c3_close_amended`: a successful close of `base`. -/
theorem c3_close_amended_witness :
    Close base (okEnv 0 5) true = ((if true then none else some .closeFail),
      { base with w := { base.w with file := some ⟨true⟩ } }) :=
  (c3_close_amended base (okEnv 0 5) true).2 base ⟨false⟩ (by decide) rfl rfl

/-- Full case analysis of `Write`: the bytes are buffered, a flush is
triggered exactly by the size-or-age condition, and the result reflects the
flush's outcome. -/
lemma write_spec_cases (s : Sys) (p : List Byte) (env : WriteEnv) :
    (¬ (((buffered s p).w.buf.length : Int) ≥ s.w.maxBufSize ∨
          env.now - s.w.lastFlush ≥ s.w.maxBufAge) →
        Write s p env = ((p.length, none), buffered s p)) ∧
    ((((buffered s p).w.buf.length : Int) ≥ s.w.maxBufSize ∨
          env.now - s.w.lastFlush ≥ s.w.maxBufAge) →
        ((flush (buffered s p) env.fenv).1 = none →
            Write s p env = ((p.length, none), (flush (buffered s p) env.fenv).2)) ∧
        (∀ e, (flush (buffered s p) env.fenv).1 = some e →
            Write s p env = ((0, some e), (flush (buffered s p) env.fenv).2))) := by
  unfold Write
  constructor
  · intro h
    rw [if_neg h]
  · intro h
    rw [if_pos h]
    rcases hfl : flush (buffered s p) env.fenv with ⟨oe, s2⟩
    constructor
    · intro hnone
      simp only at hnone
      subst hnone
      rfl
    · intro e he
      simp only at he
      subst he
      rfl

/-- **C5.** `Write` appends `p` to the buffer and then flushes exactly when
the extended buffer's length has reached `maxBufSize` or the time since the
last flush has reached `maxBufAge`; it returns `(len p, nil)` when no flush
was needed or the triggered flush succeeded, and `(0, the flush error)`
when the triggered flush failed. -/
theorem c5_write_spec (s : Sys) (p : List Byte) (env : WriteEnv) :
    (¬ (((buffered s p).w.buf.length : Int) ≥ s.w.maxBufSize ∨
          env.now - s.w.lastFlush ≥ s.w.maxBufAge) →
        Write s p env = ((p.length, none), buffered s p)) ∧
    ((((buffered s p).w.buf.length : Int) ≥ s.w.maxBufSize ∨
          env.now - s.w.lastFlush ≥ s.w.maxBufAge) →
        ((flush (buffered s p) env.fenv).1 = none →
            Write s p env = ((p.length, none), (flush (buffered s p) env.fenv).2)) ∧
        (∀ e, (flush (buffered s p) env.fenv).1 = some e →
            Write s p env = ((0, some e), (flush (buffered s p) env.fenv).2))) :=
  write_spec_cases s p env

/-- Witness for `c5_write_spec`: a two-byte write below both thresholds
only buffers. -/
theorem c5_write_spec_witness :
    Write base [1, 2] ⟨3, okEnv 0 3⟩ = ((2, none), buffered base [1, 2]) :=
  (c5_write_spec base [1, 2] ⟨3, okEnv 0 3⟩).1 (by decide)

/-- **C7.** When `flush` fails at any point (nil-handle guard, size query,
rotation, file write, or sync), the in-memory buffer still holds exactly
the bytes it held when the flush began and `lastFlush` is unchanged, so a
retry would re-attempt the same bytes. -/
theorem c7_flush_error_atomic (s : Sys) (env : FlushEnv) (e : RErr) (s1 : Sys)
    (h : flush s env = (some e, s1)) :
    s1.w.buf = s.w.buf ∧ s1.w.lastFlush = s.w.lastFlush :=
  flush_error_inv s env e s1 h

/-- Witness for `c7_flush_error_atomic`: a flush whose sync fails has
written the bytes to the file yet keeps them buffered with `lastFlush`
unchanged. -/
theorem c7_flush_error_atomic_witness :
    ({ base7 with fs := { base7.fs with active := some [7] } } : Sys).w.buf = base7.w.buf ∧
    ({ base7 with fs := { base7.fs with active := some [7] } } : Sys).w.lastFlush
      = base7.w.lastFlush :=
  c7_flush_error_atomic base7 syncFailEnv .syncFail
    { base7 with fs := { base7.fs with active := some [7] } } (by decide)

/-- **C9.** For every writer the operations can reach from `New` whose
buffer is empty, `Flush` returns nil and leaves the whole state unchanged —
in particular `lastFlush` is not reset by the empty flush — and a later
`Write` made once `maxBufAge` has elapsed since that untouched `lastFlush`
still takes the flush path. -/
theorem c9_empty_flush (s : Sys) (env : FlushEnv)
    (hreach : ∃ dir mfs mbs mba t0 ops, runOps (New dir mfs mbs mba t0) ops = s)
    (hbuf : s.w.buf = []) :
    Flush s env = (none, s) ∧
    ∀ p wenv, wenv.now - s.w.lastFlush ≥ s.w.maxBufAge →
      ((flush (buffered s p) wenv.fenv).1 = none →
          Write s p wenv = ((p.length, none), (flush (buffered s p) wenv.fenv).2)) ∧
      (∀ e, (flush (buffered s p) wenv.fenv).1 = some e →
          Write s p wenv = ((0, some e), (flush (buffered s p) wenv.fenv).2)) := by
  obtain ⟨dir, mfs, mbs, mba, t0, ops, hrun⟩ := hreach
  have hgood : goodState s := by
    rw [← hrun]
    exact runOps_goodState ops (New dir mfs mbs mba t0) (Or.inl (by simp [New]))
  have hfile : s.w.file ≠ none := by
    rcases hgood with h1 | h2
    · exact h1
    · exact absurd hbuf h2
  rcases hf : s.w.file with _ | f
  · exact absurd hf hfile
  constructor
  · unfold Flush flush
    rw [hf]
    simp [hbuf]
  · intro p wenv hage
    exact (write_spec_cases s p wenv).2 (Or.inr hage)

/-- Witness for `c9_empty_flush` on `base` (= `New` run on no operations):
the empty flush is a no-op and an age-triggered write two seconds later
flushes. -/
theorem c9_empty_flush_witness :
    Flush base (okEnv 0 9) = (none, base) ∧
    Write base [4] ⟨2000000000, okEnv 0 5⟩
      = ((1, none), (flush (buffered base [4]) (okEnv 0 5)).2) :=
  ⟨(c9_empty_flush base (okEnv 0 9)
      ⟨"d", 1000000, 10, 1000000000, 0, [], rfl⟩ rfl).1,
   ((c9_empty_flush base (okEnv 0 9)
      ⟨"d", 1000000, 10, 1000000000, 0, [], rfl⟩ rfl).2 [4] ⟨2000000000, okEnv 0 5⟩
      (by decide)).1 (by decide)⟩

/-- **C10.** A `Write` of the empty byte sequence adds nothing to the
buffer but still evaluates the flush conditions on the existing buffer: it
returns `(0, nil)` with the state untouched when no flush is triggered,
`(0, nil)` when the triggered flush succeeds, and `(0, the error)` when it
fails. -/
theorem c10_empty_write (s : Sys) (env : WriteEnv) :
    (¬ ((s.w.buf.length : Int) ≥ s.w.maxBufSize ∨
          env.now - s.w.lastFlush ≥ s.w.maxBufAge) →
        Write s [] env = ((0, none), s)) ∧
    (((s.w.buf.length : Int) ≥ s.w.maxBufSize ∨
          env.now - s.w.lastFlush ≥ s.w.maxBufAge) →
        ((flush s env.fenv).1 = none → Write s [] env = ((0, none), (flush s env.fenv).2)) ∧
        (∀ e, (flush s env.fenv).1 = some e →
            Write s [] env = ((0, some e), (flush s env.fenv).2))) := by
  have hb : buffered s [] = s := by
    simp [buffered]
  have h := write_spec_cases s [] env
  rw [hb] at h
  simpa using h

/-- Witness for `c10_empty_write`: an empty write on a writer with a full
buffer flushes the buffered byte. -/
theorem c10_empty_write_witness :
    Write base7 [] ⟨2000000000, okEnv 0 5⟩
      = ((0, none), (flush base7 (okEnv 0 5)).2) :=
  ((c10_empty_write base7 ⟨2000000000, okEnv 0 5⟩).2 (by decide)).1 (by decide)

/-- **C4, counterexample.** The claim says that whenever every flush and
rotation succeeds, archives plus the final active file reproduce all
successfully written bytes.  On `tinySys` three one-byte writes all return
nil errors and each rotates, but all three rotation instants fall in
microsecond 0, so each rename silently replaces the previous archive: the
disk ends with one archive `[2]` and active file `[3]` — byte 1 is lost —
even though the trace wrote `[1, 2, 3]` and ended with an empty buffer. -/
theorem c4_counterexample :
    runOk tinySys [colOp1, colOp2, colOp3] = true ∧
    writtenBytes [colOp1, colOp2, colOp3] = [1, 2, 3] ∧
    (runOps tinySys [colOp1, colOp2, colOp3]).w.buf = [] ∧
    fsBytes (runOps tinySys [colOp1, colOp2, colOp3]).fs = [2, 3] := by decide

/-- **C4, amended.** For every sequence of operations on a writer fresh
from `New` in which every operation returns a nil error and the rotation
instants of the operations are pairwise distinct at microsecond
granularity, the archives in rotation order, then the final active file,
then any bytes still sitting in the buffer reproduce exactly the
concatenation, in call order, of all bytes whose `Write` calls returned
success; in particular, when the final buffer is empty (e.g. after a
trailing `Flush` or `Close`), the files alone reproduce the written
bytes. -/
theorem c4_round_trip (dir : String) (mfs mbs mba t0 : Int) (ops : List Op)
    (hpw : (ops.map opMicro).Pairwise (· ≠ ·))
    (hok : runOk (New dir mfs mbs mba t0) ops = true) :
    allBytes (runOps (New dir mfs mbs mba t0) ops) = writtenBytes ops ∧
    ((runOps (New dir mfs mbs mba t0) ops).w.buf = [] →
        fsBytes (runOps (New dir mfs mbs mba t0) ops).fs = writtenBytes ops) := by
  have h := run_allBytes ops (New dir mfs mbs mba t0) hpw
      (by intro a ha; simp [New] at ha) hok
  have hstart : allBytes (New dir mfs mbs mba t0) = [] := by
    simp [allBytes, fsBytes, New]
  rw [hstart] at h
  simp only [List.nil_append] at h
  refine ⟨h, ?_⟩
  intro hbuf
  have h2 : allBytes (runOps (New dir mfs mbs mba t0) ops)
      = fsBytes (runOps (New dir mfs mbs mba t0) ops).fs := by
    simp [allBytes, hbuf]
  rw [← h2, h]

/-- Witness for `c4_round_trip`: the same three writes with rotation
instants in distinct microseconds lose nothing. -/
theorem c4_round_trip_witness :
    allBytes (runOps (New "d" 1 1 1000000000 0) [sepOp1, sepOp2, sepOp3])
        = writtenBytes [sepOp1, sepOp2, sepOp3] ∧
    ((runOps (New "d" 1 1 1000000000 0) [sepOp1, sepOp2, sepOp3]).w.buf = [] →
        fsBytes (runOps (New "d" 1 1 1000000000 0) [sepOp1, sepOp2, sepOp3]).fs
          = writtenBytes [sepOp1, sepOp2, sepOp3]) :=
  c4_round_trip "d" 1 1 1000000000 0 [sepOp1, sepOp2, sepOp3] (by decide) (by decide)

/-- **C6.** For a flush of a non-empty buffer on an open writer whose OS
calls all succeed (and whose rotation name is fresh, so the rename replaces
nothing): a rotation is performed if and only if the active file's size
plus the buffer length reaches `maxFileSize`, and it happens strictly
before the buffer is written — the archive holds exactly the old active
bytes and the fresh active file exactly the buffered bytes, so no buffered
byte is lost. -/
theorem c6_rotation_iff (s : Sys) (env : FlushEnv) (A : List Byte)
    (hbuf : s.w.buf ≠ []) (hfile : s.w.file = some ⟨false⟩)
    (hactive : s.fs.active = some A)
    (hstat : env.statOk = true) (hclose : env.closeOk = true)
    (hrename : env.renameOk = true) (hopen : env.openOk = true)
    (hwrite : env.writeOk = true) (hsync : env.syncOk = true)
    (hfresh : ∀ a ∈ s.fs.archives, a.1 ≠ archiveKey env.rotTime) :
    ((A.length : Int) + s.w.buf.length ≥ s.w.maxFileSize →
        flush s env =
          (none, { w := { s.w with buf := [], lastFlush := env.endTime, file := some ⟨false⟩ }
                   fs := { active := some s.w.buf
                           archives := s.fs.archives ++ [(archiveKey env.rotTime, A)] } })) ∧
    ((A.length : Int) + s.w.buf.length < s.w.maxFileSize →
        flush s env =
          (none, { s with
                    w := { s.w with buf := [], lastFlush := env.endTime }
                    fs := { s.fs with active := some (A ++ s.w.buf) } })) := by
  constructor
  · intro hge
    unfold flush rotate renameAndReopen flushTail fsRename
    rw [hfile]
    simp [hactive, hbuf, hstat, hclose, hrename, hopen, hwrite, hsync, hge,
      filter_ne_of_fresh _ _ hfresh]
    try exact fun a b hab => hfresh (a, b) hab
  · intro hlt
    unfold flush flushTail
    rw [hfile]
    simp [hactive, hbuf, hstat, hwrite, hsync, not_le.mpr hlt]

/-- Witness for `c6_rotation_iff`: one byte buffered over a one-byte
active file with `maxFileSize = 2` rotates; the archive gets the old byte
and the fresh active file the buffered byte. -/
theorem c6_rotation_iff_witness :
    flush { w := { dirPath := "d", maxFileSize := 2, maxBufSize := 10,
                   maxBufAge := 1000000000, lastFlush := 0,
                   file := some ⟨false⟩, buf := [8] }
            fs := { active := some [9], archives := [] } } (okEnv 1500 7) =
      (none, { w := { dirPath := "d", maxFileSize := 2, maxBufSize := 10,
                      maxBufAge := 1000000000, lastFlush := 7,
                      file := some ⟨false⟩, buf := [] }
               fs := { active := some [8], archives := [(1, [9])] } }) := by
  have h := (c6_rotation_iff
      { w := { dirPath := "d", maxFileSize := 2, maxBufSize := 10,
               maxBufAge := 1000000000, lastFlush := 0,
               file := some ⟨false⟩, buf := [8] }
        fs := { active := some [9], archives := [] } }
      (okEnv 1500 7) [9] (by decide) rfl rfl rfl rfl rfl rfl rfl rfl
      (by decide)).1 (by decide)
  simpa using h

/-- **C8, counterexample.** The claim says any two rotations performed by
the same process receive distinct archive names.  Two successive
successful rotations whose instants (100 ns and 700 ns) differ but fall in
the same microsecond produce the same name: after the second rotation the
directory still holds a single archive, named by microsecond 0, now with
the later contents. -/
theorem c8_counterexample :
    runOk tinySys [colOp1] = true ∧
    (runOps tinySys [colOp1]).fs.archives = [(0, [])] ∧
    runOk tinySys [colOp1, colOp2] = true ∧
    (runOps tinySys [colOp1, colOp2]).fs.archives = [(0, [1])] := by decide

/-- **C8, amended.** A successful rotation archives the old active file
under the name `<directory>/<timestamp>.log` whose `<timestamp>` is the
rotation instant formatted with microsecond precision — i.e. the name is
determined by `rotTime / 1000` — replacing any archive that already bears
that name; hence two rotations receive distinct names exactly when their
instants differ at microsecond granularity, which rapid succession within
one microsecond defeats. -/
theorem c8_archive_names (s : Sys) (env : FlushEnv) (s1 : Sys)
    (h : rotate s env = (none, s1)) :
    ∃ content, s.fs.active = some content ∧
      s1.fs.archives =
        s.fs.archives.filter (fun a => decide (a.1 ≠ archiveKey env.rotTime))
          ++ [(archiveKey env.rotTime, content)] := by
  obtain ⟨content, hact, rfl⟩ := rotate_ok s env s1 h
  exact ⟨content, hact, rfl⟩

/-- Witness for `c8_archive_names`: a rotation of `base` at instant
1500 ns archives the (empty) active file under microsecond 1. -/
theorem c8_archive_names_witness :
    ∃ content, base.fs.active = some content ∧
      (rotate base (okEnv 1500 0)).2.fs.archives =
        base.fs.archives.filter (fun a => decide (a.1 ≠ archiveKey 1500))
          ++ [(archiveKey 1500, content)] :=
  c8_archive_names base (okEnv 1500 0) (rotate base (okEnv 1500 0)).2 (by decide)

end Rlog
